import Mathlib

/-!
Verification of the gopocketbaseclient bulk-operation engine and migration
pipeline (`utils.go`, `models.go`), shallowly embedded in Lean 4.

Modelling conventions:
* Go `map[string]interface{}` values are association lists with string keys
  (`RecordData`); all map uses in the verified code are order-insensitive
  (conjunctive comparison, key removal, key filtering), so a fixed list order
  is harmless.
* Dynamic JSON values are `GoValue`; `GoValue.toGoString` models
  `fmt.Sprintf("%v", v)` for the value shapes that occur.
* The HTTP transport (`Client.doRequest`) is an external collaborator: it is a
  pure function `Request → Except GoError Resp`. A successful response body is
  seen by the Go code only through `UnmarshalPocketBaseJSON`, so `Resp` records
  the two views the code takes of a body: as a single JSON object
  (`asRecord`, `none` = unmarshal failure) and as a `JSONItems` envelope
  (`asItems`; outer `none` = unmarshal failure, inner `none` = the `items`
  field absent, i.e. the raw message is nil/empty).
* Every embedded operation also returns the list of `Request`s it issued, in
  issue order, so that "no network call" and "exactly one create" claims are
  statable.
* The concurrent collection loop of the bulk operations reads per-item
  completions from a channel in a nondeterministic completion order; theorems
  quantify over an arbitrary permutation of the per-item results fed to
  `collectResults`.  The executable operation functions fix input order as the
  canonical completion order.
-/

namespace PB

/-- A dynamic JSON-compatible value as stored in `map[string]interface{}`. -/
inductive GoValue
  | str (s : String)
  | int (n : Int)
  | bool (b : Bool)
  | null
deriving DecidableEq, Repr

/-- `fmt.Sprintf("%v", v)` for the modelled value shapes. -/
def GoValue.toGoString : GoValue → String
  | .str s => s
  | .int n => toString n
  | .bool b => if b then "true" else "false"
  | .null => "<nil>"

/-- A Go `map[string]interface{}` as an association list. -/
abbrev RecordData := List (String × GoValue)

/-- Go error values, reduced to their message text. -/
abbrev GoError := String

/-- One HTTP request as handed to `Client.doRequest`. -/
structure Request where
  method : String
  path : String
  body : Option RecordData
deriving DecidableEq, Repr

/-- The two views the Go code takes of a successful response body through
`UnmarshalPocketBaseJSON`: as a JSON object (`asRecord`) and as the
`JSONItems` envelope (`asItems`).  `asRecord = none` models an unmarshal
failure into a map; `asItems = none` models an unmarshal failure into
`JSONItems`; `asItems = some none` models a present envelope whose `items`
field is absent, i.e. `JSONItems.Items` is a nil `json.RawMessage`. -/
structure Resp where
  asRecord : Option RecordData
  asItems : Option (Option (List RecordData))
deriving DecidableEq, Repr

/-- The external transport collaborator: `doRequest` as a pure function. -/
abbrev Transport := Request → Except GoError Resp

/-- The `POST /api/collections/{collection}/records` create request. -/
def postRequest (collection : String) (body : RecordData) : Request :=
  { method := "POST", path := "/api/collections/" ++ collection ++ "/records",
    body := some body }

/-- The `PATCH /api/collections/{collection}/records/{id}` update request. -/
def patchRequest (collection id : String) (body : RecordData) : Request :=
  { method := "PATCH",
    path := "/api/collections/" ++ collection ++ "/records/" ++ id,
    body := some body }

/-- The `DELETE /api/collections/{collection}/records/{id}` request. -/
def deleteRequest (collection id : String) : Request :=
  { method := "DELETE",
    path := "/api/collections/" ++ collection ++ "/records/" ++ id,
    body := none }

/-- The `GET .../records?perPage=-1` request issued by `Client.All`. -/
def allRequest (collection : String) : Request :=
  { method := "GET",
    path := "/api/collections/" ++ collection ++ "/records?perPage=-1",
    body := none }

/-! ## Bulk operation engine (`utils.go` lines 535-859) -/

/-- `BulkError` (utils.go): a failed item of a bulk operation. -/
structure BulkError where
  Index : Nat
  ID : String
  Error : GoError
deriving DecidableEq, Repr

/-- `BulkOperationResult` (utils.go). -/
structure BulkOperationResult where
  Success : List String
  Failed : List BulkError
  SuccessCount : Nat
  FailureCount : Nat
  TotalCount : Nat
deriving DecidableEq, Repr

/-- `UpsertRecord` (utils.go). -/
structure UpsertRecord where
  ID : String
  Data : RecordData
deriving DecidableEq, Repr

/-- The `result` triple sent on the completion channel by every per-item
goroutine: `{index, id, err}`. -/
structure ItemResult where
  index : Nat
  id : String
  err : Option GoError
deriving DecidableEq, Repr

/-- ID extraction from a create response: unmarshal the body into a map and
read its `id` field via `fmt.Sprintf("%v", ·)`; on unmarshal failure or a
missing `id` field the id silently stays `""`. -/
def extractId (resp : Resp) : String :=
  match resp.asRecord with
  | none => ""
  | some r =>
    match r.lookup "id" with
    | some v => v.toGoString
    | none => ""

/-- Body of the per-item goroutine of `CreateMultipleRecords`
(utils.go 585-605): one POST; on transport success the id is extracted
best-effort and the error is `none`. -/
def createWork (t : Transport) (collection : String) (idx : Nat)
    (rec : RecordData) : ItemResult × List Request :=
  let req := postRequest collection rec
  match t req with
  | .error e => (⟨idx, "", some e⟩, [req])
  | .ok resp => (⟨idx, extractId resp, none⟩, [req])

/-- Body of the per-item goroutine of `UpdateMultipleRecords`
(utils.go 653-679): a missing `id` key is a local failure with no request;
otherwise the id is stripped from the body and a PATCH is sent. -/
def updateWork (t : Transport) (collection : String) (idx : Nat)
    (upd : RecordData) : ItemResult × List Request :=
  match upd.lookup "id" with
  | none =>
    (⟨idx, "",
      some ("update record at index " ++ toString idx ++ " missing 'id' field")⟩,
     [])
  | some idVal =>
    let id := idVal.toGoString
    let updateData := upd.filter (fun kv => kv.1 ≠ "id")
    let req := patchRequest collection id updateData
    match t req with
    | .error e => (⟨idx, id, some e⟩, [req])
    | .ok _ => (⟨idx, id, none⟩, [req])

/-- Body of the per-item goroutine of `DeleteMultipleRecords`
(utils.go 726-735). -/
def deleteWork (t : Transport) (collection : String) (idx : Nat)
    (recordID : String) : ItemResult × List Request :=
  let req := deleteRequest collection recordID
  match t req with
  | .error e => (⟨idx, recordID, some e⟩, [req])
  | .ok _ => (⟨idx, recordID, none⟩, [req])

/-- Body of the per-item goroutine of `BulkUpsert` (utils.go 782-833):
with a non-empty ID, PATCH first; on update failure fall back to exactly one
POST of the same data, composing both error texts if it also fails; with an
empty ID, POST directly. -/
def upsertWork (t : Transport) (collection : String) (idx : Nat)
    (rec : UpsertRecord) : ItemResult × List Request :=
  if rec.ID ≠ "" then
    let patchReq := patchRequest collection rec.ID rec.Data
    match t patchReq with
    | .ok _ => (⟨idx, rec.ID, none⟩, [patchReq])
    | .error updateErr =>
      let createReq := postRequest collection rec.Data
      match t createReq with
      | .error createErr =>
        (⟨idx, "",
          some ("update failed: " ++ updateErr ++ ", create failed: " ++ createErr)⟩,
         [patchReq, createReq])
      | .ok resp => (⟨idx, extractId resp, none⟩, [patchReq, createReq])
  else
    let createReq := postRequest collection rec.Data
    match t createReq with
    | .error e => (⟨idx, "", some e⟩, [createReq])
    | .ok resp => (⟨idx, extractId resp, none⟩, [createReq])

/-- One iteration of the result-collection loop shared by all four bulk
operations (utils.go 615-628). -/
def collectStep (acc : BulkOperationResult) (r : ItemResult) :
    BulkOperationResult :=
  match r.err with
  | some e =>
    { acc with
      Failed := acc.Failed ++ [⟨r.index, r.id, e⟩],
      FailureCount := acc.FailureCount + 1 }
  | none =>
    { acc with
      Success := acc.Success ++ [r.id],
      SuccessCount := acc.SuccessCount + 1 }

/-- The result-collection loop: starting from the fresh result with
`TotalCount` preset to the input length, fold the N completions received from
the channel (in an arbitrary completion order). -/
def collectResults (total : Nat) (rs : List ItemResult) : BulkOperationResult :=
  rs.foldl collectStep
    { Success := [], Failed := [], SuccessCount := 0, FailureCount := 0,
      TotalCount := total }

/-- The zero `BulkOperationResult` returned on empty input
(`&BulkOperationResult{}`). -/
def emptyBulk : BulkOperationResult :=
  { Success := [], Failed := [], SuccessCount := 0, FailureCount := 0,
    TotalCount := 0 }

/-- The per-item results of `CreateMultipleRecords`, tagged by input index. -/
def createItemResults (t : Transport) (collection : String)
    (records : List RecordData) : List (ItemResult × List Request) :=
  records.enum.map fun p => createWork t collection p.1 p.2

/-- The per-item results of `UpdateMultipleRecords`. -/
def updateItemResults (t : Transport) (collection : String)
    (updates : List RecordData) : List (ItemResult × List Request) :=
  updates.enum.map fun p => updateWork t collection p.1 p.2

/-- The per-item results of `DeleteMultipleRecords`. -/
def deleteItemResults (t : Transport) (collection : String)
    (ids : List String) : List (ItemResult × List Request) :=
  ids.enum.map fun p => deleteWork t collection p.1 p.2

/-- The per-item results of `BulkUpsert`. -/
def upsertItemResults (t : Transport) (collection : String)
    (records : List UpsertRecord) : List (ItemResult × List Request) :=
  records.enum.map fun p => upsertWork t collection p.1 p.2

/-- `CreateMultipleRecords` (utils.go 560-631), with input order as the
canonical completion order.  The Go nil-slice check is not modelled (a nil
and an empty slice coincide in this embedding). -/
def CreateMultipleRecords (t : Transport) (collection : String)
    (records : List RecordData) :
    Except GoError (BulkOperationResult × List Request) :=
  if collection = "" then .error "collection name cannot be empty"
  else if records.isEmpty then .ok (emptyBulk, [])
  else
    let irs := createItemResults t collection records
    .ok (collectResults records.length (irs.map Prod.fst),
         (irs.map Prod.snd).flatten)

/-- `UpdateMultipleRecords` (utils.go 634-705). -/
def UpdateMultipleRecords (t : Transport) (collection : String)
    (updates : List RecordData) :
    Except GoError (BulkOperationResult × List Request) :=
  if updates.isEmpty then .ok (emptyBulk, [])
  else
    let irs := updateItemResults t collection updates
    .ok (collectResults updates.length (irs.map Prod.fst),
         (irs.map Prod.snd).flatten)

/-- `DeleteMultipleRecords` (utils.go 708-761). -/
def DeleteMultipleRecords (t : Transport) (collection : String)
    (ids : List String) :
    Except GoError (BulkOperationResult × List Request) :=
  if ids.isEmpty then .ok (emptyBulk, [])
  else
    let irs := deleteItemResults t collection ids
    .ok (collectResults ids.length (irs.map Prod.fst),
         (irs.map Prod.snd).flatten)

/-- `BulkUpsert` (utils.go 764-859). -/
def BulkUpsert (t : Transport) (collection : String)
    (records : List UpsertRecord) :
    Except GoError (BulkOperationResult × List Request) :=
  if records.isEmpty then .ok (emptyBulk, [])
  else
    let irs := upsertItemResults t collection records
    .ok (collectResults records.length (irs.map Prod.fst),
         (irs.map Prod.snd).flatten)

/-! ## Plain fetch-by-filter (`utils.go` 409-494) -/

/-- `formatFilterValue` (utils.go 409-433) on the modelled value shapes;
for `nil` it returns `null`, strings are quote-escaped and single-quoted. -/
def formatFilterValue : GoValue → String
  | .null => "null"
  | .str s => "'" ++ s.replace "'" "\\'" ++ "'"
  | .bool b => if b then "true" else "false"
  | .int n => toString n

/-- The filter string built by `GetRecords`: `(k1=v1 && k2=v2 && ...)`.
URL query-escaping is an injective transport-layer encoding and is not
modelled. -/
def buildFilterString (filters : List (String × GoValue)) : String :=
  "(" ++ String.intercalate " && "
    (filters.map fun kv => kv.1 ++ "=" ++ formatFilterValue kv.2) ++ ")"

/-- `GetRecords` (utils.go 435-478).  The returned value models the
`JSONItems` struct via its `Items` field (`none` = nil raw message).
The guard `len(records.Items) == 0` tests the *byte length of the raw
`json.RawMessage`*: it holds exactly when the `items` field was absent from
the response (raw message nil), since a present-but-empty array marshals to
the two bytes `[]`.  It is therefore modelled as `its.isNone`. -/
def GetRecords (t : Transport) (collection : String)
    (filters : List (String × GoValue)) :
    Except GoError (Option (List RecordData)) × List Request :=
  if collection = "" then (.error "collection name cannot be empty", [])
  else
    let req : Request :=
      { method := "GET",
        path := "/api/collections/" ++ collection ++
          "/records?perPage=-1&filter=" ++ buildFilterString filters,
        body := none }
    match t req with
    | .error e => (.error e, [req])
    | .ok resp =>
      match resp.asItems with
      | none => (.error "failed to unmarshal JSON", [req])
      | some its =>
        if its.isNone then (.error "no records found", [req])
        else (.ok its, [req])

/-- `Client.All` (utils.go 480-494): fetch every record, no emptiness
check. -/
def All (t : Transport) (collection : String) :
    Except GoError (Option (List RecordData)) × List Request :=
  let req := allRequest collection
  match t req with
  | .error e => (.error e, [req])
  | .ok resp =>
    match resp.asItems with
    | none => (.error "failed to unmarshal JSON", [req])
    | some its => (.ok its, [req])

/-- `Client.CreateRecord` (utils.go 385-406): POST the record, then
unmarshal the response into a map; an unmarshalable response is an error.
The Go nil-map check is not modelled. -/
def CreateRecord (t : Transport) (collection : String) (record : RecordData) :
    Except GoError Unit × List Request :=
  if collection = "" then (.error "collection name cannot be empty", [])
  else
    let req := postRequest collection record
    match t req with
    | .error e => (.error ("failed to create record: " ++ e), [req])
    | .ok resp =>
      match resp.asRecord with
      | none => (.error "failed to unmarshal create record response", [req])
      | some _ => (.ok (), [req])

/-! ## Migration pipeline (`utils.go` 861-1148, `models.go` 352-391) -/

/-- `MigrationConfig` (models.go). `BatchSize` is a Go `int`. -/
structure MigrationConfig where
  DestinationURL : String
  DestinationJWT : String
  CollectionName : String
  SkipExisting : Bool
  BatchSize : Int
deriving DecidableEq, Repr

/-- `MigrationError` (models.go). -/
structure MigrationError where
  RecordID : String
  RecordIndex : Nat
  Operation : String
  Error : GoError
deriving DecidableEq, Repr

/-- `MigrationResult` (models.go).  `ProcessingTime` is wall-clock text and
is modelled as the empty string. -/
structure MigrationResult where
  SourceCollection : String
  DestinationCollection : String
  TotalRecords : Nat
  SuccessfulRecords : Nat
  FailedRecords : Nat
  SkippedRecords : Nat
  ProcessingTime : String
  Errors : List MigrationError
  Summary : String
deriving DecidableEq, Repr

/-- `MigrationRecord` (models.go). -/
structure MigrationRecord where
  SourceID : String
  Data : RecordData
  Created : String
  Updated : String
deriving DecidableEq, Repr

/-- `isSystemField` (utils.go 994-1002). -/
def isSystemField (fieldName : String) : Bool :=
  ["id", "created", "updated", "collectionId", "collectionName"].contains
    fieldName

/-- The per-record body of `getAllRecordsForMigration`'s conversion loop
(utils.go 964-988): remember id/created/updated, copy all non-system
fields. -/
def extractMigrationRecord (record : RecordData) : MigrationRecord :=
  { SourceID :=
      match record.lookup "id" with
      | some v => v.toGoString
      | none => ""
    Created :=
      match record.lookup "created" with
      | some v => v.toGoString
      | none => ""
    Updated :=
      match record.lookup "updated" with
      | some v => v.toGoString
      | none => ""
    Data := record.filter (fun kv => !isSystemField kv.1) }

/-- `getAllRecordsForMigration` (utils.go 949-991).  A nil `Items` raw
message makes the inner `UnmarshalPocketBaseJSON` fail with
`cannot unmarshal empty data`. -/
def getAllRecordsForMigration (t : Transport) (collection : String) :
    Except GoError (List MigrationRecord) × List Request :=
  let (res, reqs) := All t collection
  match res with
  | .error e => (.error ("failed to fetch records: " ++ e), reqs)
  | .ok none => (.error "failed to parse records: cannot unmarshal empty data", reqs)
  | .ok (some records) => (.ok (records.map extractMigrationRecord), reqs)

/-- `recordsMatch` (utils.go 1113-1135): every non-system field of `record1`
must be present in `record2` with an equal stringified value; fields of
`record2` absent from `record1` are ignored. -/
def recordsMatch (record1 record2 : RecordData) : Bool :=
  record1.all fun kv =>
    if isSystemField kv.1 then true
    else
      match record2.lookup kv.1 with
      | none => false
      | some v2 => kv.2.toGoString == v2.toGoString

/-- `recordExistsInDestination` (utils.go 1087-1110): fetch the whole
destination collection and scan for a match. -/
def recordExistsInDestination (destT : Transport) (collectionName : String)
    (record : MigrationRecord) : Except GoError Bool × List Request :=
  let (res, reqs) := All destT collectionName
  match res with
  | .error e => (.error e, reqs)
  | .ok none => (.error "failed to unmarshal JSON: cannot unmarshal empty data", reqs)
  | .ok (some destRecords) =>
    (.ok (destRecords.any fun destRecord => recordsMatch record.Data destRecord),
     reqs)

/-- Outcome of one record inside `migrateBatch`'s loop. -/
inductive MigOutcome
  | success
  | skipped
  | failed (e : MigrationError)
deriving DecidableEq, Repr

/-- One iteration of the `migrateBatch` loop (utils.go 1046-1081) for the
record at absolute index `recordIndex`. -/
def migrateOne (destT : Transport) (config : MigrationConfig)
    (record : MigrationRecord) (recordIndex : Nat) :
    MigOutcome × List Request :=
  let create : List Request → MigOutcome × List Request := fun prevReqs =>
    let (cres, creqs) := CreateRecord destT config.CollectionName record.Data
    match cres with
    | .error e =>
      (.failed ⟨record.SourceID, recordIndex, "create", e⟩, prevReqs ++ creqs)
    | .ok _ => (.success, prevReqs ++ creqs)
  if config.SkipExisting then
    let (exres, ereqs) :=
      recordExistsInDestination destT config.CollectionName record
    match exres with
    | .error e =>
      (.failed ⟨record.SourceID, recordIndex, "existence_check", e⟩, ereqs)
    | .ok true => (.skipped, ereqs)
    | .ok false => create ereqs
  else create []

/-- Fold one record outcome into the running batch result, prepending so
that the error list keeps loop order. -/
def migCombine (o : MigOutcome) (r : MigrationResult) : MigrationResult :=
  match o with
  | .success => { r with SuccessfulRecords := r.SuccessfulRecords + 1 }
  | .skipped => { r with SkippedRecords := r.SkippedRecords + 1 }
  | .failed e =>
    { r with FailedRecords := r.FailedRecords + 1, Errors := e :: r.Errors }

/-- The zero `MigrationResult`. -/
def emptyMigResult : MigrationResult :=
  { SourceCollection := "", DestinationCollection := "", TotalRecords := 0,
    SuccessfulRecords := 0, FailedRecords := 0, SkippedRecords := 0,
    ProcessingTime := "", Errors := [], Summary := "" }

/-- `migrateBatch` (utils.go 1038-1084), as a recursion over the batch with
`startIndex` the absolute index of its first record. -/
def migrateBatch (destT : Transport) (config : MigrationConfig) :
    List MigrationRecord → Nat → MigrationResult × List Request
  | [], _ => (emptyMigResult, [])
  | record :: rest, startIndex =>
    let (o, reqs) := migrateOne destT config record startIndex
    let (restRes, restReqs) := migrateBatch destT config rest (startIndex + 1)
    (migCombine o restRes, reqs ++ restReqs)

/-- The contiguous chunks `records[i:i+batchSize]` walked by
`migrateRecordsBatch`'s loop.  The `0` case is unreachable from
`MigrateCollection` (the batch size is defaulted to 50 when ≤ 0); it is
given a total value. -/
def chunkList : Nat → List MigrationRecord → List (List MigrationRecord)
  | _, [] => []
  | 0, l => [l]
  | bs + 1, x :: xs =>
    ((x :: xs).take (bs + 1)) :: chunkList (bs + 1) ((x :: xs).drop (bs + 1))
termination_by bs l => l.length
decreasing_by simp [List.length_drop]; omega

/-- Aggregation of `migrateBatch` results across the chunks
(utils.go 1015-1032), threading the absolute start index. -/
def migrateChunks (destT : Transport) (config : MigrationConfig) :
    List (List MigrationRecord) → Nat → MigrationResult × List Request
  | [], _ => (emptyMigResult, [])
  | b :: bs, i =>
    let (r, reqs) := migrateBatch destT config b i
    let (rest, restReqs) := migrateChunks destT config bs (i + b.length)
    ({ rest with
        SuccessfulRecords := r.SuccessfulRecords + rest.SuccessfulRecords,
        FailedRecords := r.FailedRecords + rest.FailedRecords,
        SkippedRecords := r.SkippedRecords + rest.SkippedRecords,
        Errors := r.Errors ++ rest.Errors },
     reqs ++ restReqs)

/-- `migrateRecordsBatch` (utils.go 1005-1035): chunk the records by
`config.BatchSize` and aggregate, with `TotalRecords` preset to the input
length.  Never fails. -/
def migrateRecordsBatch (destT : Transport) (config : MigrationConfig)
    (records : List MigrationRecord) : MigrationResult × List Request :=
  let (res, reqs) :=
    migrateChunks destT config (chunkList config.BatchSize.toNat records) 0
  ({ res with TotalRecords := records.length }, reqs)

/-- `validateMigrationConfig` (utils.go 922-936). -/
def validateMigrationConfig (config : MigrationConfig) : Except GoError Unit :=
  if config.DestinationURL = "" then .error "destination URL cannot be empty"
  else if config.DestinationJWT = "" then .error "destination JWT cannot be empty"
  else if config.CollectionName = "" then .error "collection name cannot be empty"
  else if config.BatchSize < 0 then .error "batch size cannot be negative"
  else .ok ()

/-- `testDestinationConnection` (utils.go 939-946). -/
def testDestinationConnection (destT : Transport) (collectionName : String) :
    Except GoError Unit × List Request :=
  let (res, reqs) := All destT collectionName
  match res with
  | .error e =>
    (.error ("cannot access destination collection '" ++ collectionName ++
       "': " ++ e), reqs)
  | .ok _ => (.ok (), reqs)

/-- `MigrateCollection` (utils.go 864-919).  `newClient` models
`NewClient(config.DestinationURL, config.DestinationJWT)`; the returned
request list holds the requests issued against the *destination* transport
in issue order. -/
def MigrateCollection (srcT : Transport)
    (newClient : String → String → Transport) (config : MigrationConfig) :
    Except GoError (MigrationResult × List Request) :=
  match validateMigrationConfig config with
  | .error e => .error ("invalid migration config: " ++ e)
  | .ok _ =>
    let config :=
      if config.BatchSize ≤ 0 then { config with BatchSize := 50 } else config
    let destT := newClient config.DestinationURL config.DestinationJWT
    let (conn, connReqs) := testDestinationConnection destT config.CollectionName
    match conn with
    | .error e => .error ("destination connection failed: " ++ e)
    | .ok _ =>
      match (getAllRecordsForMigration srcT config.CollectionName).1 with
      | .error e => .error ("failed to fetch source records: " ++ e)
      | .ok sourceRecords =>
        if sourceRecords.isEmpty then
          .ok ({ SourceCollection := config.CollectionName,
                 DestinationCollection := config.CollectionName,
                 TotalRecords := 0, SuccessfulRecords := 0,
                 FailedRecords := 0, SkippedRecords := 0,
                 ProcessingTime := "", Errors := [],
                 Summary := "No records found in source collection" },
               connReqs)
        else
          let (result, reqs) := migrateRecordsBatch destT config sourceRecords
          .ok ({ result with
                 ProcessingTime := "",
                 SourceCollection := config.CollectionName,
                 DestinationCollection := config.CollectionName,
                 Summary := "Migration completed: " ++
                   toString result.SuccessfulRecords ++ "/" ++
                   toString result.TotalRecords ++
                   " records successfully migrated" },
               connReqs ++ reqs)

/-! ## Bounded concurrent executor (`utils.go` 571-628 and analogues)

Every bulk operation spawns one goroutine per item over a buffered channel
`semaphore` of capacity 10 used as a counting semaphore, and a `results`
channel of capacity N.  Each goroutine's observable behaviour is

  `acquire; (its remote calls); send its result; release`

(the deferred release runs at function exit, after the send; note that the
missing-id early return of `UpdateMultipleRecords` also sends before the
deferred release, so a single program shape with `w` remote calls covers
every per-item unit of work, `w ∈ {0, 1, 2}` in the four operations).  The
collector loop performs exactly N receives.  The interleaving of these
sequential programs is modelled by a step relation. -/

/-- `const maxConcurrency = 10`. -/
def maxConcurrency : Nat := 10

/-- Observable actions of a per-item goroutine. -/
inductive Action
  | acquire
  | call
  | send
  | release
deriving DecidableEq, Repr

/-- The action program of one per-item goroutine performing `w` remote
calls: acquire the gate, do the calls, send the completion, release the
gate. -/
def taskActions (w : Nat) : List Action :=
  Action.acquire :: (List.replicate w Action.call ++ [Action.send, Action.release])

/-- Global state of one bulk call: per-task program counters, tokens held in
the semaphore channel, results sent, results received by the collector. -/
structure ExecState where
  pcs : List Nat
  sem : Nat
  sent : Nat
  received : Nat
deriving DecidableEq, Repr

/-- Initial state for `n` spawned tasks. -/
def initState (n : Nat) : ExecState :=
  { pcs := List.replicate n 0, sem := 0, sent := 0, received := 0 }

/-- Effect of one task action on the global state. -/
def applyAct (a : Action) (i : Nat) (s : ExecState) : ExecState :=
  let s' := { s with pcs := s.pcs.set i (s.pcs.getD i 0 + 1) }
  match a with
  | .acquire => { s' with sem := s.sem + 1 }
  | .call => s'
  | .send => { s' with sent := s.sent + 1 }
  | .release => { s' with sem := s.sem - 1 }

/-- Interleaving semantics: a task may take its next action — a send into
the full-capacity semaphore channel blocks unless fewer than
`maxConcurrency` tokens are held — and the collector may receive any
already-sent result.  `ws` lists each task's number of remote calls. -/
inductive Step (ws : List Nat) : ExecState → ExecState → Prop
  | task (i : Nat) (a : Action) (s : ExecState)
      (hi : i < ws.length)
      (ha : (taskActions (ws.getD i 0))[s.pcs.getD i 0]? = some a)
      (hen : a = Action.acquire → s.sem < maxConcurrency) :
      Step ws s (applyAct a i s)
  | recv (s : ExecState) (h : s.received < s.sent) :
      Step ws s { s with received := s.received + 1 }

/-- States reachable from the initial state of a bulk call. -/
def Reachable (ws : List Nat) (s : ExecState) : Prop :=
  Relation.ReflTransGen (Step ws) (initState ws.length) s

/-- A task with `w` calls holds the gate exactly while its pc is past the
acquire and at most at the release. -/
def holding (w pc : Nat) : Bool :=
  decide (1 ≤ pc ∧ pc ≤ w + 2)

/-- Number of tasks whose (workload, pc) pair satisfies `P`. -/
def countTasks (P : Nat → Nat → Bool) (ws pcs : List Nat) : Nat :=
  (Finset.range ws.length).sum fun i =>
    if P (ws.getD i 0) (pcs.getD i 0) then 1 else 0

/-- Number of units of work currently in flight (gate held). -/
def inFlight (ws pcs : List Nat) : Nat :=
  countTasks holding ws pcs

/-- A task with `w` calls has sent its completion once its pc passed the
send action at position `w+1`. -/
def doneP (w pc : Nat) : Bool :=
  decide (w + 2 ≤ pc)

/-- Number of tasks that have already sent their completion. -/
def sendsDone (ws pcs : List Nat) : Nat :=
  countTasks doneP ws pcs

/-- The executor invariant. -/
def ExecInv (ws : List Nat) (s : ExecState) : Prop :=
  s.pcs.length = ws.length ∧
  s.sem = inFlight ws s.pcs ∧
  s.sem ≤ maxConcurrency ∧
  (∀ i, s.pcs.getD i 0 ≤ ws.getD i 0 + 3) ∧
  s.sent = sendsDone ws s.pcs ∧
  s.received ≤ s.sent

/-! ## Auxiliary definitions used by the verification -/

/-- The indices reported in a returned `BulkOperationResult`: only `Failed`
entries carry an index field; `Success` entries are bare ID strings. -/
def reportedIndices (b : BulkOperationResult) : List Nat :=
  b.Failed.map BulkError.Index

/-- A response whose body either fails to unmarshal into a map or holds no
`id` field. -/
def noIdResp (resp : Resp) : Bool :=
  match resp.asRecord with
  | none => true
  | some r => (r.lookup "id").isNone

/-- A transport for which every request fails. -/
def errTransport : Transport := fun _ => .error "network error"

/-- A transport answering every request with the same response. -/
def okTransport (resp : Resp) : Transport := fun _ => .ok resp

/-- A response representing the body `{"items": []}`: a zero-record query
result. -/
def respEmptyItems : Resp :=
  { asRecord := some [], asItems := some (some []) }

/-- A response whose body is unparsable in both views. -/
def respUnparsable : Resp :=
  { asRecord := none, asItems := none }

/-- A response object carrying an `id` field. -/
def respWithId : Resp :=
  { asRecord := some [("id", GoValue.str "abc123def456ghi")],
    asItems := some none }

/-- A destination-collection response holding one record `{"x": "1"}`. -/
def respOneItem : Resp :=
  { asRecord := some [], asItems := some (some [[("x", GoValue.str "1")]]) }

/-! ### Executor lemmas -/

theorem taskActions_length (w : Nat) : (taskActions w).length = w + 3 := by
  simp [taskActions]

/-- Characterisation of a task program: the acquire is first, the `w` remote
calls occupy positions `1..w`, the completion send is at `w+1`, and the
release is at `w+2`, the last action. -/
theorem taskActions_char {w pc : Nat} {a : Action}
    (h : (taskActions w)[pc]? = some a) :
    (a = Action.acquire ∧ pc = 0) ∨
    (a = Action.call ∧ 1 ≤ pc ∧ pc ≤ w) ∨
    (a = Action.send ∧ pc = w + 1) ∨
    (a = Action.release ∧ pc = w + 2) := by
  match pc with
  | 0 =>
    left
    simp only [taskActions, List.getElem?_cons_zero, Option.some.injEq] at h
    exact ⟨h.symm, rfl⟩
  | pc + 1 =>
    simp only [taskActions, List.getElem?_cons_succ] at h
    rcases Nat.lt_or_ge pc w with hlt | hge
    · rw [List.getElem?_append_left (by simpa using hlt)] at h
      simp [List.getElem?_replicate, hlt] at h
      right; left; exact ⟨h.symm, by omega⟩
    · rw [List.getElem?_append_right (by simpa using hge)] at h
      simp only [List.length_replicate] at h
      rcases Nat.lt_or_ge (pc - w) 2 with h2 | h2
      · match hk : pc - w, h2 with
        | 0, _ =>
          rw [hk] at h
          simp only [List.getElem?_cons_zero, Option.some.injEq] at h
          right; right; left; exact ⟨h.symm, by omega⟩
        | 1, _ =>
          rw [hk] at h
          simp only [List.getElem?_cons_succ, List.getElem?_cons_zero,
            Option.some.injEq] at h
          right; right; right; exact ⟨h.symm, by omega⟩
      · exfalso
        rw [List.getElem?_eq_none (by simp; omega)] at h
        exact Option.noConfusion h

theorem taskActions_call_window {w pc : Nat}
    (h : (taskActions w)[pc]? = some Action.call) : 1 ≤ pc ∧ pc ≤ w := by
  rcases taskActions_char h with ⟨h1, _⟩ | ⟨_, h1⟩ | ⟨h1, _⟩ | ⟨h1, _⟩
  · exact absurd h1.symm (by simp)
  · exact h1
  · exact absurd h1.symm (by simp)
  · exact absurd h1.symm (by simp)

theorem taskActions_last (w : Nat) :
    (taskActions w)[w + 2]? = some Action.release ∧
    (taskActions w).length = w + 3 := by
  refine ⟨?_, taskActions_length w⟩
  simp only [taskActions, List.getElem?_cons_succ]
  rw [List.getElem?_append_right (by simp)]
  simp

theorem countTasks_set (P : Nat → Nat → Bool) (ws pcs : List Nat)
    (i v : Nat) (hi : i < ws.length) (hlen : pcs.length = ws.length) :
    countTasks P ws (pcs.set i v) +
      (if P (ws.getD i 0) (pcs.getD i 0) then 1 else 0) =
    countTasks P ws pcs + (if P (ws.getD i 0) v then 1 else 0) := by
  have hmem : i ∈ Finset.range ws.length := Finset.mem_range.mpr hi
  have hvi : (pcs.set i v).getD i 0 = v := by
    simp [List.getD_eq_getElem?_getD, List.getElem?_set_self, hlen ▸ hi]
  have hvj : ∀ j, j ≠ i → (pcs.set i v).getD j 0 = pcs.getD j 0 := by
    intro j hj
    simp [List.getD_eq_getElem?_getD, List.getElem?_set_ne (Ne.symm hj)]
  unfold countTasks
  rw [← Finset.sum_erase_add _ _ hmem, ← Finset.sum_erase_add _
    (fun j => if P (ws.getD j 0) (pcs.getD j 0) then 1 else 0) hmem]
  have hcongr :
      (∑ j ∈ (Finset.range ws.length).erase i,
        if P (ws.getD j 0) ((pcs.set i v).getD j 0) then 1 else 0) =
      ∑ j ∈ (Finset.range ws.length).erase i,
        if P (ws.getD j 0) (pcs.getD j 0) then 1 else 0 := by
    refine Finset.sum_congr rfl fun j hj => ?_
    rw [hvj j (Finset.ne_of_mem_erase hj)]
  rw [hcongr, hvi]
  omega

theorem countTasks_full (P : Nat → Nat → Bool) (ws pcs : List Nat)
    (h : countTasks P ws pcs = ws.length) :
    ∀ i < ws.length, P (ws.getD i 0) (pcs.getD i 0) = true := by
  intro i hi
  by_contra hP
  have hmem : i ∈ Finset.range ws.length := Finset.mem_range.mpr hi
  set f : Nat → Nat :=
    fun j => if P (ws.getD j 0) (pcs.getD j 0) then 1 else 0 with hf
  have hzero : f i = 0 := if_neg hP
  have hsplit : (∑ j ∈ (Finset.range ws.length).erase i, f j) + f i =
      ∑ j ∈ Finset.range ws.length, f j :=
    Finset.sum_erase_add (Finset.range ws.length) f hmem
  have hbound : (∑ j ∈ (Finset.range ws.length).erase i, f j) ≤
      ((Finset.range ws.length).erase i).card := by
    have := Finset.sum_le_card_nsmul ((Finset.range ws.length).erase i) f 1
      (by intro j _; rw [hf]; dsimp only; split <;> omega)
    simpa using this
  have hcard : ((Finset.range ws.length).erase i).card = ws.length - 1 := by
    rw [Finset.card_erase_of_mem hmem, Finset.card_range]
  have hct : countTasks P ws pcs = ∑ j ∈ Finset.range ws.length, f j := rfl
  omega

theorem execInv_init (ws : List Nat) : ExecInv ws (initState ws.length) := by
  have hget : ∀ i, (List.replicate ws.length (0 : Nat)).getD i 0 = 0 := by
    intro i; simp [List.getD_eq_getElem?_getD]
  refine ⟨by simp [initState], ?_, ?_, ?_, ?_, ?_⟩
  · unfold inFlight countTasks initState
    rw [Finset.sum_eq_zero]
    intro j _
    simp [hget, holding]
  · simp [initState, maxConcurrency]
  · intro i; simp [initState, hget]
  · unfold sendsDone countTasks initState
    rw [Finset.sum_eq_zero]
    intro j _
    simp [hget, doneP]
  · simp [initState]

theorem execInv_step {ws : List Nat} {s s' : ExecState}
    (hinv : ExecInv ws s) (hstep : Step ws s s') : ExecInv ws s' := by
  obtain ⟨hlen, hsem, hcap, hpc, hsent, hrecv⟩ := hinv
  cases hstep with
  | recv s h =>
    refine ⟨hlen, hsem, hcap, hpc, hsent, ?_⟩
    show s.received + 1 ≤ s.sent
    omega
  | task i a s hi ha hen =>
    have hchar := taskActions_char ha
    have hflight := countTasks_set holding ws s.pcs i
      (s.pcs.getD i 0 + 1) hi hlen
    have hdone := countTasks_set doneP ws s.pcs i
      (s.pcs.getD i 0 + 1) hi hlen
    have hsetlen : (s.pcs.set i (s.pcs.getD i 0 + 1)).length = ws.length := by
      simp [hlen]
    have hsetget : ∀ j, (s.pcs.set i (s.pcs.getD i 0 + 1)).getD j 0 ≤
        ws.getD j 0 + 3 := by
      intro j
      rcases eq_or_ne j i with rfl | hne
      · have : (s.pcs.set j (s.pcs.getD j 0 + 1)).getD j 0 =
            s.pcs.getD j 0 + 1 := by
          simp [List.getD_eq_getElem?_getD, List.getElem?_set_self, hlen ▸ hi]
        rw [this]
        have hlt : s.pcs.getD j 0 < (taskActions (ws.getD j 0)).length := by
          by_contra hge
          rw [List.getElem?_eq_none (by omega)] at ha
          exact Option.noConfusion ha
        rw [taskActions_length] at hlt
        omega
      · have : (s.pcs.set i (s.pcs.getD i 0 + 1)).getD j 0 = s.pcs.getD j 0 := by
          simp [List.getD_eq_getElem?_getD, List.getElem?_set_ne (Ne.symm hne)]
        rw [this]; exact hpc j
    have hiold : ∀ b : Bool, holding (ws.getD i 0) (s.pcs.getD i 0) = b →
        (if holding (ws.getD i 0) (s.pcs.getD i 0) then 1 else 0) =
          (if b then 1 else 0) := by
      intro b hb; rw [hb]
    have hinew : ∀ b : Bool, holding (ws.getD i 0) (s.pcs.getD i 0 + 1) = b →
        (if holding (ws.getD i 0) (s.pcs.getD i 0 + 1) then 1 else 0) =
          (if b then 1 else 0) := by
      intro b hb; rw [hb]
    have hdold : ∀ b : Bool, doneP (ws.getD i 0) (s.pcs.getD i 0) = b →
        (if doneP (ws.getD i 0) (s.pcs.getD i 0) then 1 else 0) =
          (if b then 1 else 0) := by
      intro b hb; rw [hb]
    have hdnew : ∀ b : Bool, doneP (ws.getD i 0) (s.pcs.getD i 0 + 1) = b →
        (if doneP (ws.getD i 0) (s.pcs.getD i 0 + 1) then 1 else 0) =
          (if b then 1 else 0) := by
      intro b hb; rw [hb]
    rcases hchar with ⟨rfl, hpc0⟩ | ⟨rfl, hpcw⟩ | ⟨rfl, hpcw⟩ | ⟨rfl, hpcw⟩
    · -- acquire
      have e1 := hiold false (by unfold holding; simp only [decide_eq_true_eq, decide_eq_false_iff_not]; omega)
      have e2 := hinew true (by unfold holding; simp only [decide_eq_true_eq, decide_eq_false_iff_not]; omega)
      have e3 := hdold false (by unfold doneP; simp only [decide_eq_true_eq, decide_eq_false_iff_not]; omega)
      have e4 := hdnew false (by unfold doneP; simp only [decide_eq_true_eq, decide_eq_false_iff_not]; omega)
      simp only [if_true, if_false, Bool.false_eq_true] at e1 e2 e3 e4
      refine ⟨by simpa [applyAct] using hsetlen, ?_, ?_, hsetget, ?_, hrecv⟩
      · show s.sem + 1 = inFlight ws (s.pcs.set i (s.pcs.getD i 0 + 1))
        unfold inFlight at hsem ⊢
        omega
      · show s.sem + 1 ≤ maxConcurrency
        exact hen rfl
      · show s.sent = sendsDone ws (s.pcs.set i (s.pcs.getD i 0 + 1))
        unfold sendsDone at hsent ⊢
        omega
    · -- call
      have e1 := hiold true (by unfold holding; simp only [decide_eq_true_eq, decide_eq_false_iff_not]; omega)
      have e2 := hinew true (by unfold holding; simp only [decide_eq_true_eq, decide_eq_false_iff_not]; omega)
      have e3 := hdold false (by unfold doneP; simp only [decide_eq_true_eq, decide_eq_false_iff_not]; omega)
      have e4 := hdnew false (by unfold doneP; simp only [decide_eq_true_eq, decide_eq_false_iff_not]; omega)
      simp only [if_true, if_false, Bool.false_eq_true] at e1 e2 e3 e4
      refine ⟨by simpa [applyAct] using hsetlen, ?_, hcap, hsetget, ?_, hrecv⟩
      · show s.sem = inFlight ws (s.pcs.set i (s.pcs.getD i 0 + 1))
        unfold inFlight at hsem ⊢
        omega
      · show s.sent = sendsDone ws (s.pcs.set i (s.pcs.getD i 0 + 1))
        unfold sendsDone at hsent ⊢
        omega
    · -- send
      have e1 := hiold true (by unfold holding; simp only [decide_eq_true_eq, decide_eq_false_iff_not]; omega)
      have e2 := hinew true (by unfold holding; simp only [decide_eq_true_eq, decide_eq_false_iff_not]; omega)
      have e3 := hdold false (by unfold doneP; simp only [decide_eq_true_eq, decide_eq_false_iff_not]; omega)
      have e4 := hdnew true (by unfold doneP; simp only [decide_eq_true_eq, decide_eq_false_iff_not]; omega)
      simp only [if_true, if_false, Bool.false_eq_true] at e1 e2 e3 e4
      refine ⟨by simpa [applyAct] using hsetlen, ?_, hcap, hsetget, ?_, ?_⟩
      · show s.sem = inFlight ws (s.pcs.set i (s.pcs.getD i 0 + 1))
        unfold inFlight at hsem ⊢
        omega
      · show s.sent + 1 = sendsDone ws (s.pcs.set i (s.pcs.getD i 0 + 1))
        unfold sendsDone at hsent ⊢
        omega
      · show s.received ≤ s.sent + 1
        omega
    · -- release
      have e1 := hiold true (by unfold holding; simp only [decide_eq_true_eq, decide_eq_false_iff_not]; omega)
      have e2 := hinew false (by unfold holding; simp only [decide_eq_true_eq, decide_eq_false_iff_not]; omega)
      have e3 := hdold true (by unfold doneP; simp only [decide_eq_true_eq, decide_eq_false_iff_not]; omega)
      have e4 := hdnew true (by unfold doneP; simp only [decide_eq_true_eq, decide_eq_false_iff_not]; omega)
      simp only [if_true, if_false, Bool.false_eq_true] at e1 e2 e3 e4
      refine ⟨by simpa [applyAct] using hsetlen, ?_, ?_, hsetget, ?_, hrecv⟩
      · show s.sem - 1 = inFlight ws (s.pcs.set i (s.pcs.getD i 0 + 1))
        unfold inFlight at hsem ⊢
        omega
      · show s.sem - 1 ≤ maxConcurrency
        omega
      · show s.sent = sendsDone ws (s.pcs.set i (s.pcs.getD i 0 + 1))
        unfold sendsDone at hsent ⊢
        omega

theorem execInv_reachable {ws : List Nat} {s : ExecState}
    (h : Reachable ws s) : ExecInv ws s := by
  induction h with
  | refl => exact execInv_init ws
  | tail _ hstep ih => exact execInv_step ih hstep

theorem countTasks_le (P : Nat → Nat → Bool) (ws pcs : List Nat) :
    countTasks P ws pcs ≤ ws.length := by
  unfold countTasks
  have := Finset.sum_le_card_nsmul (Finset.range ws.length)
    (fun j => if P (ws.getD j 0) (pcs.getD j 0) then 1 else 0) 1
    (by intro j _; dsimp only; split <;> omega)
  simpa using this

/-! ### Result-collection lemmas -/

theorem collectResults_foldl (rs : List ItemResult) (acc : BulkOperationResult) :
    (rs.foldl collectStep acc).Success =
      acc.Success ++ (rs.filter fun r => r.err.isNone).map ItemResult.id ∧
    (rs.foldl collectStep acc).Failed =
      acc.Failed ++ (rs.filter fun r => r.err.isSome).map
        (fun r => ⟨r.index, r.id, r.err.getD ""⟩) ∧
    (rs.foldl collectStep acc).SuccessCount =
      acc.SuccessCount + rs.countP (fun r => r.err.isNone) ∧
    (rs.foldl collectStep acc).FailureCount =
      acc.FailureCount + rs.countP (fun r => r.err.isSome) ∧
    (rs.foldl collectStep acc).TotalCount = acc.TotalCount := by
  induction rs generalizing acc with
  | nil => simp
  | cons r rs ih =>
    obtain ⟨h1, h2, h3, h4, h5⟩ := ih (collectStep acc r)
    rw [List.foldl_cons]
    cases herr : r.err with
    | none =>
      have hstep : collectStep acc r =
          { acc with
            Success := acc.Success ++ [r.id],
            SuccessCount := acc.SuccessCount + 1 } := by
        unfold collectStep; rw [herr]
      refine ⟨?_, ?_, ?_, ?_, ?_⟩
      · rw [h1, hstep]
        simp [List.filter_cons, herr, Option.isNone, List.append_assoc]
      · rw [h2, hstep]
        simp [List.filter_cons, herr, Option.isSome]
      · rw [h3, hstep]
        simp [List.countP_cons, herr, Option.isNone]
        omega
      · rw [h4, hstep]
        simp [List.countP_cons, herr, Option.isSome]
      · rw [h5, hstep]
    | some e =>
      have hstep : collectStep acc r =
          { acc with
            Failed := acc.Failed ++ [⟨r.index, r.id, e⟩],
            FailureCount := acc.FailureCount + 1 } := by
        unfold collectStep; rw [herr]
      refine ⟨?_, ?_, ?_, ?_, ?_⟩
      · rw [h1, hstep]
        simp [List.filter_cons, herr, Option.isNone]
      · rw [h2, hstep]
        simp [List.filter_cons, herr, Option.isSome, List.append_assoc]
      · rw [h3, hstep]
        simp [List.countP_cons, herr, Option.isNone]
      · rw [h4, hstep]
        simp [List.countP_cons, herr, Option.isSome]
        omega
      · rw [h5, hstep]

theorem collectResults_spec (total : Nat) (rs : List ItemResult) :
    (collectResults total rs).SuccessCount =
      (collectResults total rs).Success.length ∧
    (collectResults total rs).FailureCount =
      (collectResults total rs).Failed.length ∧
    (collectResults total rs).SuccessCount +
      (collectResults total rs).FailureCount = rs.length ∧
    (collectResults total rs).TotalCount = total := by
  obtain ⟨h1, h2, h3, h4, h5⟩ := collectResults_foldl rs
    { Success := [], Failed := [], SuccessCount := 0, FailureCount := 0,
      TotalCount := total }
  unfold collectResults
  rw [h1, h2, h3, h4, h5]
  simp only [List.nil_append, List.length_map, Nat.zero_add]
  refine ⟨List.countP_eq_length_filter _ _,
          List.countP_eq_length_filter _ _, ?_, trivial⟩
  have : ∀ l : List ItemResult,
      l.countP (fun r => r.err.isNone) + l.countP (fun r => r.err.isSome) =
        l.length := by
    intro l
    induction l with
    | nil => simp
    | cons x xs ihx =>
      simp only [List.countP_cons, List.length_cons]
      cases hx : x.err <;> simp [hx] <;> omega
  exact this rs

theorem collectResults_success_mem (total : Nat) (rs : List ItemResult)
    (r : ItemResult) (hmem : r ∈ rs) (herr : r.err = none) :
    r.id ∈ (collectResults total rs).Success := by
  obtain ⟨h1, _, _, _, _⟩ := collectResults_foldl rs
    { Success := [], Failed := [], SuccessCount := 0, FailureCount := 0,
      TotalCount := total }
  unfold collectResults
  rw [h1]
  simp only [List.nil_append, List.mem_map]
  exact ⟨r, List.mem_filter.mpr ⟨hmem, by simp [herr]⟩, rfl⟩

theorem collectResults_failed_filter (total : Nat) (rs : List ItemResult) :
    (collectResults total rs).Failed =
      (rs.filter fun r => r.err.isSome).map
        (fun r => ⟨r.index, r.id, r.err.getD ""⟩) := by
  obtain ⟨_, h2, _, _, _⟩ := collectResults_foldl rs
    { Success := [], Failed := [], SuccessCount := 0, FailureCount := 0,
      TotalCount := total }
  unfold collectResults
  rw [h2]
  simp

/-! ### Per-item index preservation -/

theorem createWork_index (t : Transport) (c : String) (i : Nat)
    (r : RecordData) : (createWork t c i r).1.index = i := by
  unfold createWork
  dsimp only
  split <;> rfl

theorem updateWork_index (t : Transport) (c : String) (i : Nat)
    (u : RecordData) : (updateWork t c i u).1.index = i := by
  unfold updateWork
  split
  · rfl
  · dsimp only
    split <;> rfl

theorem deleteWork_index (t : Transport) (c : String) (i : Nat)
    (id : String) : (deleteWork t c i id).1.index = i := by
  unfold deleteWork
  dsimp only
  split <;> rfl

theorem upsertWork_index (t : Transport) (c : String) (i : Nat)
    (r : UpsertRecord) : (upsertWork t c i r).1.index = i := by
  unfold upsertWork
  dsimp only
  repeat' split
  all_goals rfl

theorem itemResults_indices {α : Type} (work : Nat → α → ItemResult × List Request)
    (hidx : ∀ i a, (work i a).1.index = i) (l : List α) :
    ((l.enum.map fun p => work p.1 p.2).map Prod.fst).map ItemResult.index =
      List.range l.length := by
  rw [← List.enum_map_fst l]
  rw [List.map_map, List.map_map]
  refine List.map_congr_left ?_
  intro p _
  exact hidx p.1 p.2

/-! ### Migration aggregation lemmas -/

theorem chunkList_flatten (bs : Nat) (l : List MigrationRecord) :
    (chunkList bs l).flatten = l := by
  match bs, l with
  | _, [] => simp [chunkList]
  | 0, x :: xs => simp [chunkList]
  | bs + 1, x :: xs =>
    rw [chunkList]
    simp only [List.flatten_cons]
    rw [chunkList_flatten (bs + 1) ((x :: xs).drop (bs + 1))]
    exact List.take_append_drop (bs + 1) (x :: xs)
termination_by l.length
decreasing_by simp [List.length_drop]; omega

theorem migrateBatch_counts (destT : Transport) (config : MigrationConfig)
    (batch : List MigrationRecord) (startIndex : Nat) :
    (migrateBatch destT config batch startIndex).1.SuccessfulRecords +
      (migrateBatch destT config batch startIndex).1.FailedRecords +
      (migrateBatch destT config batch startIndex).1.SkippedRecords =
      batch.length := by
  induction batch generalizing startIndex with
  | nil => simp [migrateBatch, emptyMigResult]
  | cons r rest ih =>
    have := ih (startIndex + 1)
    rw [migrateBatch]
    dsimp only
    cases (migrateOne destT config r startIndex).1 <;>
      simp [migCombine] <;> omega

theorem migrateChunks_counts (destT : Transport) (config : MigrationConfig)
    (chunks : List (List MigrationRecord)) (i : Nat) :
    (migrateChunks destT config chunks i).1.SuccessfulRecords +
      (migrateChunks destT config chunks i).1.FailedRecords +
      (migrateChunks destT config chunks i).1.SkippedRecords =
      chunks.flatten.length := by
  induction chunks generalizing i with
  | nil => simp [migrateChunks, emptyMigResult]
  | cons b bs ih =>
    have h1 := migrateBatch_counts destT config b i
    have h2 := ih (i + b.length)
    rw [migrateChunks]
    dsimp only
    simp only [List.flatten_cons, List.length_append]
    omega

theorem migrateRecordsBatch_counts (destT : Transport)
    (config : MigrationConfig) (records : List MigrationRecord) :
    (migrateRecordsBatch destT config records).1.SuccessfulRecords +
      (migrateRecordsBatch destT config records).1.FailedRecords +
      (migrateRecordsBatch destT config records).1.SkippedRecords =
      (migrateRecordsBatch destT config records).1.TotalRecords ∧
    (migrateRecordsBatch destT config records).1.TotalRecords =
      records.length := by
  have h := migrateChunks_counts destT config
    (chunkList config.BatchSize.toNat records) 0
  rw [chunkList_flatten] at h
  unfold migrateRecordsBatch
  exact ⟨h, rfl⟩

theorem migResult_decor_counts (r : MigrationResult) (pt cn s : String)
    (h : r.SuccessfulRecords + r.FailedRecords + r.SkippedRecords =
      r.TotalRecords) :
    ({ r with
       ProcessingTime := pt, SourceCollection := cn,
       DestinationCollection := cn, Summary := s }).SuccessfulRecords +
      ({ r with
         ProcessingTime := pt, SourceCollection := cn,
         DestinationCollection := cn, Summary := s }).FailedRecords +
      ({ r with
         ProcessingTime := pt, SourceCollection := cn,
         DestinationCollection := cn, Summary := s }).SkippedRecords =
      ({ r with
         ProcessingTime := pt, SourceCollection := cn,
         DestinationCollection := cn, Summary := s }).TotalRecords := by
  simpa using h

/-! ## Claims -/

/-- C1: for every bulk operation (`CreateMultipleRecords`,
`UpdateMultipleRecords`, `DeleteMultipleRecords`, `BulkUpsert`) on `N`
inputs and any completion order, the returned `BulkOperationResult`
satisfies `SuccessCount + FailureCount = TotalCount = N` with
`SuccessCount = Success.length` and `FailureCount = Failed.length`; on
empty input all counts are zero and no request is issued; and every
successful `MigrateCollection` run returns a `MigrationResult` with
`SuccessfulRecords + FailedRecords + SkippedRecords = TotalRecords`. -/
theorem C1_counts_invariant :
    (∀ (t : Transport) (coll : String) (records : List RecordData)
        (rs : List ItemResult),
        rs.Perm ((createItemResults t coll records).map Prod.fst) →
        (collectResults records.length rs).SuccessCount =
          (collectResults records.length rs).Success.length ∧
        (collectResults records.length rs).FailureCount =
          (collectResults records.length rs).Failed.length ∧
        (collectResults records.length rs).SuccessCount +
          (collectResults records.length rs).FailureCount =
          (collectResults records.length rs).TotalCount ∧
        (collectResults records.length rs).TotalCount = records.length) ∧
    (∀ (t : Transport) (coll : String) (updates : List RecordData)
        (rs : List ItemResult),
        rs.Perm ((updateItemResults t coll updates).map Prod.fst) →
        (collectResults updates.length rs).SuccessCount =
          (collectResults updates.length rs).Success.length ∧
        (collectResults updates.length rs).FailureCount =
          (collectResults updates.length rs).Failed.length ∧
        (collectResults updates.length rs).SuccessCount +
          (collectResults updates.length rs).FailureCount =
          (collectResults updates.length rs).TotalCount ∧
        (collectResults updates.length rs).TotalCount = updates.length) ∧
    (∀ (t : Transport) (coll : String) (ids : List String)
        (rs : List ItemResult),
        rs.Perm ((deleteItemResults t coll ids).map Prod.fst) →
        (collectResults ids.length rs).SuccessCount =
          (collectResults ids.length rs).Success.length ∧
        (collectResults ids.length rs).FailureCount =
          (collectResults ids.length rs).Failed.length ∧
        (collectResults ids.length rs).SuccessCount +
          (collectResults ids.length rs).FailureCount =
          (collectResults ids.length rs).TotalCount ∧
        (collectResults ids.length rs).TotalCount = ids.length) ∧
    (∀ (t : Transport) (coll : String) (records : List UpsertRecord)
        (rs : List ItemResult),
        rs.Perm ((upsertItemResults t coll records).map Prod.fst) →
        (collectResults records.length rs).SuccessCount =
          (collectResults records.length rs).Success.length ∧
        (collectResults records.length rs).FailureCount =
          (collectResults records.length rs).Failed.length ∧
        (collectResults records.length rs).SuccessCount +
          (collectResults records.length rs).FailureCount =
          (collectResults records.length rs).TotalCount ∧
        (collectResults records.length rs).TotalCount = records.length) ∧
    (∀ (t : Transport) (coll : String), coll ≠ "" →
        CreateMultipleRecords t coll [] = .ok (emptyBulk, [])) ∧
    (∀ (t : Transport) (coll : String),
        UpdateMultipleRecords t coll [] = .ok (emptyBulk, [])) ∧
    (∀ (t : Transport) (coll : String),
        DeleteMultipleRecords t coll [] = .ok (emptyBulk, [])) ∧
    (∀ (t : Transport) (coll : String),
        BulkUpsert t coll [] = .ok (emptyBulk, [])) ∧
    emptyBulk.SuccessCount = 0 ∧ emptyBulk.FailureCount = 0 ∧
    emptyBulk.TotalCount = 0 ∧
    (∀ (srcT : Transport) (newClient : String → String → Transport)
        (config : MigrationConfig) (res : MigrationResult)
        (reqs : List Request),
        MigrateCollection srcT newClient config = .ok (res, reqs) →
        res.SuccessfulRecords + res.FailedRecords + res.SkippedRecords =
          res.TotalRecords) := by
  have hgen : ∀ (N : Nat) (irs rs : List ItemResult), rs.Perm irs →
      irs.length = N →
      (collectResults N rs).SuccessCount =
        (collectResults N rs).Success.length ∧
      (collectResults N rs).FailureCount =
        (collectResults N rs).Failed.length ∧
      (collectResults N rs).SuccessCount +
        (collectResults N rs).FailureCount =
        (collectResults N rs).TotalCount ∧
      (collectResults N rs).TotalCount = N := by
    intro N irs rs hp hlen
    obtain ⟨h1, h2, h3, h4⟩ := collectResults_spec N rs
    have hl := hp.length_eq
    exact ⟨h1, h2, by omega, h4⟩
  refine ⟨?_, ?_, ?_, ?_, ?_, ?_, ?_, ?_, rfl, rfl, rfl, ?_⟩
  · intro t coll records rs hp
    exact hgen records.length _ rs hp
      (by simp [createItemResults])
  · intro t coll updates rs hp
    exact hgen updates.length _ rs hp (by simp [updateItemResults])
  · intro t coll ids rs hp
    exact hgen ids.length _ rs hp (by simp [deleteItemResults])
  · intro t coll records rs hp
    exact hgen records.length _ rs hp (by simp [upsertItemResults])
  · intro t coll hcoll
    unfold CreateMultipleRecords
    rw [if_neg hcoll]
    rfl
  · intro t coll
    rfl
  · intro t coll
    rfl
  · intro t coll
    rfl
  · intro srcT newClient config res reqs h
    unfold MigrateCollection at h
    split at h
    · exact absurd h (by simp)
    · dsimp only at h
      split at h
      · exact absurd h (by simp)
      · split at h
        · exact absurd h (by simp)
        · split at h
          · simp only [Except.ok.injEq, Prod.mk.injEq] at h
            rw [← h.1]
            rfl
          · simp only [Except.ok.injEq, Prod.mk.injEq] at h
            rw [← h.1]
            exact migResult_decor_counts _ _ _ _
              ((migrateRecordsBatch_counts _ _ _).1)

/-- Witness for C1 at a concrete one-record input whose create call fails. -/
theorem C1_counts_invariant_witness :
    ((createItemResults errTransport "c" [[]]).map Prod.fst).Perm
      ((createItemResults errTransport "c" [[]]).map Prod.fst) ∧
    (collectResults 1
        ((createItemResults errTransport "c" [[]]).map Prod.fst)).SuccessCount +
      (collectResults 1
        ((createItemResults errTransport "c" [[]]).map Prod.fst)).FailureCount =
      (collectResults 1
        ((createItemResults errTransport "c" [[]]).map Prod.fst)).TotalCount :=
  ⟨List.Perm.refl _,
   (C1_counts_invariant.1 errTransport "c" [[]] _ (List.Perm.refl _)).2.2.1⟩

/-- C2: `BulkUpsert` per-item protocol: with a supplied (non-empty) ID the
update is attempted first and a successful update reports the input ID;
a failed update triggers exactly one fallback create, sequentially after
the update within the same unit of work (the issue trace is
`[PATCH, POST]`); if the create also fails the single recorded error embeds
both error texts; with no supplied ID a create is performed directly and no
update attempt occurs. -/
theorem C2_upsert_protocol (t : Transport) (coll : String) (idx : Nat)
    (rec : UpsertRecord) :
    (rec.ID ≠ "" →
      (∀ r, t (patchRequest coll rec.ID rec.Data) = .ok r →
        upsertWork t coll idx rec =
          (⟨idx, rec.ID, none⟩, [patchRequest coll rec.ID rec.Data])) ∧
      (∀ e, t (patchRequest coll rec.ID rec.Data) = .error e →
        (upsertWork t coll idx rec).2 =
          [patchRequest coll rec.ID rec.Data, postRequest coll rec.Data] ∧
        (∀ e2, t (postRequest coll rec.Data) = .error e2 →
          upsertWork t coll idx rec =
            (⟨idx, "",
              some ("update failed: " ++ e ++ ", create failed: " ++ e2)⟩,
             [patchRequest coll rec.ID rec.Data, postRequest coll rec.Data])))) ∧
    (rec.ID = "" →
      (upsertWork t coll idx rec).2 = [postRequest coll rec.Data] ∧
      ∀ req ∈ (upsertWork t coll idx rec).2, req.method = "POST") := by
  constructor
  · intro hID
    unfold upsertWork
    rw [if_pos hID]
    dsimp only
    constructor
    · intro r hr
      rw [hr]
    · intro e he
      rw [he]
      constructor
      · cases h2 : t (postRequest coll rec.Data) <;> rfl
      · intro e2 he2
        rw [he2]
  · intro hID
    unfold upsertWork
    rw [if_neg (by simp [hID])]
    dsimp only
    cases h2 : t (postRequest coll rec.Data) <;>
      exact ⟨rfl, by intro req hreq; simp at hreq; rw [hreq]; rfl⟩

/-- Witness for C2: an item with ID `"x1"` against a transport failing every
request: the update is attempted, the single fallback create is attempted
after it, and the recorded error embeds both error texts. -/
theorem C2_upsert_protocol_witness :
    ("x1" ≠ "") ∧
    upsertWork errTransport "c" 0 ⟨"x1", []⟩ =
      (⟨0, "", some "update failed: network error, create failed: network error"⟩,
       [patchRequest "c" "x1" [], postRequest "c" []]) :=
  ⟨by decide,
   ((C2_upsert_protocol errTransport "c" 0 ⟨"x1", []⟩).1 (by decide)).2
     "network error" rfl |>.2 "network error" rfl⟩

/-- C3: in every reachable state of a bulk call at most `maxConcurrency = 10`
units of work hold the gate; every remote call of a task program lies
strictly between its acquire and its release (which is the program's last
action, so the gate is released on every exit path); and when the collector
has received all `N` completions, every task has sent its result. -/
theorem C3_bounded_concurrency (ws : List Nat) (s : ExecState)
    (h : Reachable ws s) :
    inFlight ws s.pcs ≤ maxConcurrency ∧ maxConcurrency = 10 ∧
    (∀ w pc, (taskActions w)[pc]? = some Action.call → 1 ≤ pc ∧ pc ≤ w) ∧
    (∀ w, (taskActions w)[(taskActions w).length - 1]? = some Action.release) ∧
    (s.received = ws.length →
      ∀ i < ws.length, doneP (ws.getD i 0) (s.pcs.getD i 0) = true) := by
  obtain ⟨hlen, hsem, hcap, hpc, hsent, hrecv⟩ := execInv_reachable h
  refine ⟨by omega, rfl, ?_, ?_, ?_⟩
  · intro w pc hcall
    exact taskActions_call_window hcall
  · intro w
    rw [taskActions_length]
    exact (taskActions_last w).1
  · intro hr i hi
    have hle := countTasks_le doneP ws s.pcs
    have hfull : countTasks doneP ws s.pcs = ws.length := by
      unfold sendsDone at hsent
      omega
    exact countTasks_full doneP ws s.pcs hfull i hi

/-- Witness for C3 at the initial state of a two-task bulk call. -/
theorem C3_bounded_concurrency_witness :
    inFlight [1, 2] (initState 2).pcs ≤ maxConcurrency :=
  (C3_bounded_concurrency [1, 2] (initState 2) Relation.ReflTransGen.refl).1

/-- Counterexample to C4 as stated: a one-item `CreateMultipleRecords` whose
create succeeds returns a `BulkOperationResult` whose `Success` entry is a
bare ID with no index field; the indices reported in the result (those of
`Failed` entries, the only index-carrying entries) are empty and do not
cover `{0}`. -/
theorem C4_counterexample :
    ¬ (reportedIndices (collectResults 1
        ((createItemResults (okTransport respWithId) "c" [[]]).map
          Prod.fst))).Perm (List.range 1) := by
  decide

/-- C4 (amended): the per-item completion triples of every bulk operation
carry pairwise-distinct indices covering exactly `{0,...,N-1}` in any
completion order; in the returned `BulkOperationResult` every `Failed`
entry carries its original input index (all below `N`, no duplicates), and
`Success` and `Failed` together partition the `N` items by count — but
`Success` entries are bare IDs, so only failures are index-tagged in the
returned value. -/
theorem C4_index_coverage :
    (∀ (N : Nat) (irs rs : List ItemResult),
        irs.map ItemResult.index = List.range N →
        rs.Perm irs →
        (rs.map ItemResult.index).Perm (List.range N) ∧
        ((collectResults N rs).Failed.map BulkError.Index).Nodup ∧
        (∀ e ∈ (collectResults N rs).Failed, e.Index < N) ∧
        (collectResults N rs).Success.length +
          (collectResults N rs).Failed.length = N) ∧
    (∀ (t : Transport) (coll : String) (records : List RecordData),
        ((createItemResults t coll records).map Prod.fst).map
          ItemResult.index = List.range records.length) ∧
    (∀ (t : Transport) (coll : String) (updates : List RecordData),
        ((updateItemResults t coll updates).map Prod.fst).map
          ItemResult.index = List.range updates.length) ∧
    (∀ (t : Transport) (coll : String) (ids : List String),
        ((deleteItemResults t coll ids).map Prod.fst).map
          ItemResult.index = List.range ids.length) ∧
    (∀ (t : Transport) (coll : String) (records : List UpsertRecord),
        ((upsertItemResults t coll records).map Prod.fst).map
          ItemResult.index = List.range records.length) := by
  refine ⟨?_, ?_, ?_, ?_, ?_⟩
  · intro N irs rs hidx hp
    have hperm : (rs.map ItemResult.index).Perm (List.range N) := by
      rw [← hidx]
      exact hp.map ItemResult.index
    have hnodup : (rs.map ItemResult.index).Nodup :=
      hperm.nodup_iff.mpr (List.nodup_range N)
    have hfail : (collectResults N rs).Failed.map BulkError.Index =
        (rs.filter fun r => r.err.isSome).map ItemResult.index := by
      rw [collectResults_failed_filter, List.map_map]
      rfl
    have hsub : ((rs.filter fun r => r.err.isSome).map ItemResult.index).Sublist
        (rs.map ItemResult.index) :=
      (List.filter_sublist rs).map ItemResult.index
    refine ⟨hperm, ?_, ?_, ?_⟩
    · rw [hfail]
      exact hnodup.sublist hsub
    · intro e hmem
      have : e.Index ∈ (collectResults N rs).Failed.map BulkError.Index :=
        List.mem_map_of_mem BulkError.Index hmem
      rw [hfail] at this
      have hmem2 : e.Index ∈ rs.map ItemResult.index := hsub.mem this
      have := hperm.mem_iff.mp hmem2
      exact List.mem_range.mp this
    · obtain ⟨h1, h2, h3, h4⟩ := collectResults_spec N rs
      have hrl : rs.length = N := by
        have := hp.length_eq
        have hirs : irs.length = N := by
          have := congrArg List.length hidx
          simpa using this
        omega
      omega
  · intro t coll records
    exact itemResults_indices (createWork t coll)
      (fun i a => createWork_index t coll i a) records
  · intro t coll updates
    exact itemResults_indices (updateWork t coll)
      (fun i a => updateWork_index t coll i a) updates
  · intro t coll ids
    exact itemResults_indices (deleteWork t coll)
      (fun i a => deleteWork_index t coll i a) ids
  · intro t coll records
    exact itemResults_indices (upsertWork t coll)
      (fun i a => upsertWork_index t coll i a) records

/-- Witness for C4 (amended) on a concrete one-item failed result. -/
theorem C4_index_coverage_witness :
    ([(⟨0, "", some "err"⟩ : ItemResult)].map ItemResult.index =
      List.range 1) ∧
    (([(⟨0, "", some "err"⟩ : ItemResult)].map ItemResult.index).Perm
      (List.range 1)) :=
  ⟨by decide,
   (C4_index_coverage.1 1 [⟨0, "", some "err"⟩] [⟨0, "", some "err"⟩]
     (by decide) (List.Perm.refl _)).1⟩

/-! ### Request-trace helper lemmas -/

theorem All_snd (t : Transport) (c : String) :
    (All t c).2 = [allRequest c] := by
  unfold All
  dsimp only
  split
  · rfl
  · split <;> rfl

theorem recordExistsInDestination_snd (t : Transport) (c : String)
    (record : MigrationRecord) :
    (recordExistsInDestination t c record).2 = [allRequest c] := by
  unfold recordExistsInDestination
  have h2 := All_snd t c
  rcases hAll : All t c with ⟨res, reqs⟩
  rw [hAll] at h2
  dsimp only at h2 ⊢
  subst h2
  cases res with
  | error e => rfl
  | ok its => cases its <;> rfl

/-- With skip-existing on, a source record matching some destination record
is skipped; the only request issued is the destination fetch. -/
theorem migrateOne_skipped (destT : Transport) (config : MigrationConfig)
    (record : MigrationRecord) (idx : Nat) (destRecords : List RecordData)
    (hskip : config.SkipExisting = true)
    (hAll : (All destT config.CollectionName).1 = .ok (some destRecords))
    (hmatch : destRecords.any (fun d => recordsMatch record.Data d) = true) :
    migrateOne destT config record idx =
      (.skipped, [allRequest config.CollectionName]) := by
  have hAllfull : All destT config.CollectionName =
      (.ok (some destRecords), [allRequest config.CollectionName]) :=
    Prod.ext hAll (All_snd destT config.CollectionName)
  unfold migrateOne recordExistsInDestination
  rw [hAllfull, hskip]
  dsimp only
  rw [hmatch]
  rfl

/-- With skip-existing on, a destination lookup error records a per-record
`existence_check` failure and no create is attempted. -/
theorem migrateOne_existence_failed (destT : Transport)
    (config : MigrationConfig) (record : MigrationRecord) (idx : Nat)
    (e : GoError) (hskip : config.SkipExisting = true)
    (he : (recordExistsInDestination destT config.CollectionName record).1 =
      .error e) :
    migrateOne destT config record idx =
      (.failed ⟨record.SourceID, idx, "existence_check", e⟩,
       [allRequest config.CollectionName]) := by
  have hfull : recordExistsInDestination destT config.CollectionName record =
      (.error e, [allRequest config.CollectionName]) :=
    Prod.ext he (recordExistsInDestination_snd destT config.CollectionName
      record)
  unfold migrateOne
  rw [hskip, hfull]
  rfl

/-- C5: in `UpdateMultipleRecords`, an item lacking an `id` key is recorded
as a local failure at its own index with no request issued; an item with an
`id` key has the id stripped from the PATCH body, its id is reported on
success and lands in the result's `Success` list; and each item's
completion triple is a function of that item alone. -/
theorem C5_update_missing_id (t : Transport) (coll : String) (idx : Nat)
    (upd : RecordData) :
    (upd.lookup "id" = none →
      updateWork t coll idx upd =
        (⟨idx, "", some ("update record at index " ++ toString idx ++
          " missing 'id' field")⟩, [])) ∧
    (∀ v, upd.lookup "id" = some v →
      (∀ kv ∈ upd.filter (fun kv => kv.1 ≠ "id"), kv.1 ≠ "id") ∧
      (updateWork t coll idx upd).2 =
        [patchRequest coll v.toGoString (upd.filter fun kv => kv.1 ≠ "id")] ∧
      (∀ r, t (patchRequest coll v.toGoString
          (upd.filter fun kv => kv.1 ≠ "id")) = .ok r →
        (updateWork t coll idx upd).1 = ⟨idx, v.toGoString, none⟩)) ∧
    (∀ (total : Nat) (rs : List ItemResult) (r : ItemResult),
      r ∈ rs → r.err = none → r.id ∈ (collectResults total rs).Success) ∧
    (∀ (upds : List RecordData) (i : Nat),
      ((updateItemResults t coll upds).map Prod.fst)[i]? =
        (upds[i]?).map fun u => (updateWork t coll i u).1) := by
  refine ⟨?_, ?_, ?_, ?_⟩
  · intro h
    unfold updateWork
    rw [h]
  · intro v hv
    refine ⟨?_, ?_, ?_⟩
    · intro kv hkv
      have := (List.mem_filter.mp hkv).2
      simpa using this
    · unfold updateWork
      rw [hv]
      dsimp only
      cases h2 : t (patchRequest coll v.toGoString
          (upd.filter fun kv => kv.1 ≠ "id")) <;> rfl
    · intro r hr
      unfold updateWork
      rw [hv]
      dsimp only
      rw [hr]
  · intro total rs r hmem herr
    exact collectResults_success_mem total rs r hmem herr
  · intro upds i
    unfold updateItemResults
    simp [List.getElem?_map, List.getElem?_enum, Option.map_map]
    rfl

/-- Witness for C5 at a concrete item `{"x": "1"}` lacking `id`. -/
theorem C5_update_missing_id_witness :
    ([("x", GoValue.str "1")].lookup "id" = (none : Option GoValue)) ∧
    updateWork errTransport "c" 0 [("x", GoValue.str "1")] =
      (⟨0, "", some "update record at index 0 missing 'id' field"⟩, []) :=
  ⟨by decide,
   (C5_update_missing_id errTransport "c" 0 [("x", GoValue.str "1")]).1
     (by decide)⟩

/-- C6: with `SkipExisting` on, a source record whose non-metadata fields
match a destination record is skipped — the only request issued for it is
the destination fetch (a GET, never a create) — and a destination lookup
error records a per-record failure under operation `existence_check`
without any create attempt; skipping and failing feed the corresponding
counters. -/
theorem C6_skip_existing (destT : Transport) (config : MigrationConfig)
    (record : MigrationRecord) (idx : Nat)
    (hskip : config.SkipExisting = true) :
    (∀ destRecords,
      (All destT config.CollectionName).1 = .ok (some destRecords) →
      destRecords.any (fun d => recordsMatch record.Data d) = true →
      migrateOne destT config record idx =
        (.skipped, [allRequest config.CollectionName])) ∧
    (∀ e, (recordExistsInDestination destT config.CollectionName record).1 =
        .error e →
      migrateOne destT config record idx =
        (.failed ⟨record.SourceID, idx, "existence_check", e⟩,
         [allRequest config.CollectionName])) ∧
    ((allRequest config.CollectionName).method = "GET") ∧
    (∀ r, migCombine .skipped r =
      { r with SkippedRecords := r.SkippedRecords + 1 }) ∧
    (∀ e r, migCombine (.failed e) r =
      { r with
        FailedRecords := r.FailedRecords + 1,
        Errors := e :: r.Errors }) := by
  refine ⟨?_, ?_, rfl, fun r => rfl, fun e r => rfl⟩
  · intro destRecords hAll hmatch
    exact migrateOne_skipped destT config record idx destRecords hskip hAll
      hmatch
  · intro e he
    exact migrateOne_existence_failed destT config record idx e hskip he

/-- Witness for C6: a source record with data `{"x": "1"}` matching the one
destination record returned by the destination transport is skipped. -/
theorem C6_skip_existing_witness :
    ((true : Bool) = true) ∧
    migrateOne (okTransport respOneItem)
      ⟨"http://dest", "jwt", "c", true, 50⟩
      ⟨"src1", [("x", GoValue.str "1")], "", ""⟩ 0 =
      (.skipped, [allRequest "c"]) :=
  ⟨rfl,
   (C6_skip_existing (okTransport respOneItem)
      ⟨"http://dest", "jwt", "c", true, 50⟩
      ⟨"src1", [("x", GoValue.str "1")], "", ""⟩ 0 rfl).1
     [[("x", GoValue.str "1")]] rfl (by decide)⟩

/-- C7, evaluated at the failing input: `GetRecords` against a transport
whose response body is `{"items": []}` (a query yielding zero items)
returns the empty item list *successfully* — the `len(records.Items) == 0`
guard tests the raw byte length of the `items` message, which is 2 for a
present-but-empty array — contradicting the claimed "no records found"
error; by contrast, `MigrateCollection` over a source with zero records
does return the claimed all-zero report with summary
"No records found in source collection", touching the destination only for
the connect-check. -/
theorem C7_empty_result_behaviour :
    (GetRecords (okTransport respEmptyItems) "c" []).1 = .ok (some []) ∧
    MigrateCollection (okTransport respEmptyItems)
        (fun _ _ => okTransport respEmptyItems)
        ⟨"http://dest", "jwt", "c", false, 50⟩ =
      .ok ({ SourceCollection := "c", DestinationCollection := "c",
             TotalRecords := 0, SuccessfulRecords := 0, FailedRecords := 0,
             SkippedRecords := 0, ProcessingTime := "", Errors := [],
             Summary := "No records found in source collection" },
           [allRequest "c"]) := by
  exact ⟨rfl, rfl⟩

/-! ### Migration create-payload lemmas -/

theorem migrateBatch_snd (destT : Transport) (cfg : MigrationConfig)
    (r : MigrationRecord) (rest : List MigrationRecord) (i : Nat) :
    (migrateBatch destT cfg (r :: rest) i).2 =
      (migrateOne destT cfg r i).2 ++ (migrateBatch destT cfg rest (i + 1)).2 :=
  rfl

theorem migrateChunks_snd (destT : Transport) (cfg : MigrationConfig)
    (b : List MigrationRecord) (bs : List (List MigrationRecord)) (i : Nat) :
    (migrateChunks destT cfg (b :: bs) i).2 =
      (migrateBatch destT cfg b i).2 ++
        (migrateChunks destT cfg bs (i + b.length)).2 :=
  rfl

theorem migrateRecordsBatch_snd (destT : Transport) (cfg : MigrationConfig)
    (records : List MigrationRecord) :
    (migrateRecordsBatch destT cfg records).2 =
      (migrateChunks destT cfg (chunkList cfg.BatchSize.toNat records) 0).2 :=
  rfl

theorem CreateRecord_post (t : Transport) (c : String) (r : RecordData) :
    ∀ req ∈ (CreateRecord t c r).2, req.body = some r := by
  intro req h
  unfold CreateRecord at h
  split at h
  · simp at h
  · dsimp only at h
    split at h
    · simp at h; subst h; rfl
    · split at h <;> (simp at h; subst h; rfl)

theorem migrateOne_post (destT : Transport) (cfg : MigrationConfig)
    (record : MigrationRecord) (i : Nat) :
    ∀ req ∈ (migrateOne destT cfg record i).2, req.method = "POST" →
      req.body = some record.Data := by
  intro req hmem hpost
  unfold migrateOne at hmem
  dsimp only at hmem
  split at hmem
  · -- skip-existing branch
    rcases hEq : recordExistsInDestination destT cfg.CollectionName record
      with ⟨exres, ereqs⟩
    rw [hEq] at hmem
    have hE2 : ereqs = [allRequest cfg.CollectionName] := by
      have h := recordExistsInDestination_snd destT cfg.CollectionName record
      rw [hEq] at h
      exact h
    dsimp only at hmem
    cases exres with
    | error e =>
      subst hE2
      simp at hmem
      rw [hmem] at hpost
      simp [allRequest] at hpost
    | ok b =>
      cases b with
      | true =>
        subst hE2
        simp at hmem
        rw [hmem] at hpost
        simp [allRequest] at hpost
      | false =>
        subst hE2
        rcases hC : CreateRecord destT cfg.CollectionName record.Data
          with ⟨cres, creqs⟩
        rw [hC] at hmem
        have hC2 : ∀ rq ∈ creqs, rq.body = some record.Data := by
          intro rq hrq
          exact CreateRecord_post destT cfg.CollectionName record.Data rq
            (by rw [hC]; exact hrq)
        dsimp only at hmem
        cases cres <;> dsimp only at hmem <;>
          (rw [List.mem_append] at hmem
           rcases hmem with h | h
           · simp at h
             rw [h] at hpost
             simp [allRequest] at hpost
           · exact hC2 req h)
  · -- no skip: direct create
    rcases hC : CreateRecord destT cfg.CollectionName record.Data
      with ⟨cres, creqs⟩
    rw [hC] at hmem
    have hC2 : ∀ rq ∈ creqs, rq.body = some record.Data := by
      intro rq hrq
      exact CreateRecord_post destT cfg.CollectionName record.Data rq
        (by rw [hC]; exact hrq)
    dsimp only at hmem
    cases cres <;> dsimp only at hmem <;>
      (rw [List.nil_append] at hmem; exact hC2 req hmem)

theorem migrateBatch_post (destT : Transport) (cfg : MigrationConfig)
    (batch : List MigrationRecord) (i : Nat) :
    ∀ req ∈ (migrateBatch destT cfg batch i).2, req.method = "POST" →
      ∃ record ∈ batch, req.body = some record.Data := by
  induction batch generalizing i with
  | nil =>
    intro req h
    simp [migrateBatch] at h
  | cons r rest ih =>
    intro req hmem hpost
    rw [migrateBatch_snd, List.mem_append] at hmem
    rcases hmem with h | h
    · exact ⟨r, by simp, migrateOne_post destT cfg r i req h hpost⟩
    · obtain ⟨record, hrec, hbody⟩ := ih (i + 1) req h hpost
      exact ⟨record, by simp [hrec], hbody⟩

theorem migrateChunks_post (destT : Transport) (cfg : MigrationConfig)
    (chunks : List (List MigrationRecord)) (i : Nat) :
    ∀ req ∈ (migrateChunks destT cfg chunks i).2, req.method = "POST" →
      ∃ record ∈ chunks.flatten, req.body = some record.Data := by
  induction chunks generalizing i with
  | nil =>
    intro req h
    simp [migrateChunks] at h
  | cons b bs ih =>
    intro req hmem hpost
    rw [migrateChunks_snd, List.mem_append] at hmem
    rcases hmem with h | h
    · obtain ⟨record, hrec, hbody⟩ := migrateBatch_post destT cfg b i req h
        hpost
      exact ⟨record, by simp [hrec], hbody⟩
    · obtain ⟨record, hrec, hbody⟩ := ih (i + b.length) req h hpost
      refine ⟨record, ?_, hbody⟩
      simp only [List.flatten_cons, List.mem_append]
      right
      exact hrec

theorem migrateRecordsBatch_post (destT : Transport) (cfg : MigrationConfig)
    (records : List MigrationRecord) :
    ∀ req ∈ (migrateRecordsBatch destT cfg records).2, req.method = "POST" →
      ∃ record ∈ records, req.body = some record.Data := by
  intro req hmem hpost
  rw [migrateRecordsBatch_snd] at hmem
  obtain ⟨record, hrec, hbody⟩ := migrateChunks_post destT cfg
    (chunkList cfg.BatchSize.toNat records) 0 req hmem hpost
  rw [chunkList_flatten] at hrec
  exact ⟨record, hrec, hbody⟩

theorem extractMigrationRecord_clean (r : RecordData) :
    ∀ kv ∈ (extractMigrationRecord r).Data, isSystemField kv.1 = false := by
  intro kv hkv
  have := (List.mem_filter.mp hkv).2
  simpa using this

theorem extractId_of_noId (resp : Resp) (h : noIdResp resp = true) :
    extractId resp = "" := by
  unfold noIdResp at h
  unfold extractId
  cases hr : resp.asRecord with
  | none => rfl
  | some r =>
    rw [hr] at h
    dsimp only at h ⊢
    rw [Option.isNone_iff_eq_none] at h
    rw [h]

/-- C8: every record extracted for migration has all backend-managed
metadata fields (`id`, `created`, `updated`, `collectionId`,
`collectionName`) stripped from its `Data`, and every create (POST) request
issued by the migration batch loop carries a body free of those fields. -/
theorem C8_system_fields_stripped (srcT destT : Transport)
    (cfg : MigrationConfig) (coll : String) (recs : List MigrationRecord)
    (h : (getAllRecordsForMigration srcT coll).1 = .ok recs) :
    (∀ f, isSystemField f = true ↔
      f ∈ ["id", "created", "updated", "collectionId", "collectionName"]) ∧
    (∀ r ∈ recs, ∀ kv ∈ r.Data, isSystemField kv.1 = false) ∧
    (∀ req ∈ (migrateRecordsBatch destT cfg recs).2, req.method = "POST" →
      ∃ body, req.body = some body ∧
        ∀ kv ∈ body, isSystemField kv.1 = false) := by
  have hclean : ∀ r ∈ recs, ∀ kv ∈ r.Data, isSystemField kv.1 = false := by
    unfold getAllRecordsForMigration at h
    rcases hA : All srcT coll with ⟨res, reqs⟩
    rw [hA] at h
    dsimp only at h
    cases res with
    | error e => simp at h
    | ok its =>
      cases its with
      | none => simp at h
      | some records =>
        simp only [Except.ok.injEq] at h
        subst h
        intro r hr
        obtain ⟨raw, _, hraw⟩ := List.mem_map.mp hr
        rw [← hraw]
        exact extractMigrationRecord_clean raw
  refine ⟨?_, hclean, ?_⟩
  · intro f
    simp [isSystemField]
  · intro req hmem hpost
    obtain ⟨record, hrec, hbody⟩ :=
      migrateRecordsBatch_post destT cfg recs req hmem hpost
    exact ⟨record.Data, hbody, hclean record hrec⟩

/-- Witness for C8: a source record `{"x": "1"}` is extracted with a clean
payload. -/
theorem C8_system_fields_stripped_witness :
    isSystemField "x" = false ∧
    (getAllRecordsForMigration (okTransport respOneItem) "c").1 =
      .ok [⟨"", [("x", GoValue.str "1")], "", ""⟩] :=
  ⟨(C8_system_fields_stripped (okTransport respOneItem) errTransport
      ⟨"d", "j", "c", false, 50⟩ "c" [⟨"", [("x", GoValue.str "1")], "", ""⟩]
      (by rfl)).2.1
    ⟨"", [("x", GoValue.str "1")], "", ""⟩ (by simp)
    ("x", GoValue.str "1") (by simp),
   by rfl⟩

/-- C9: `recordsMatch` is one-directional — it holds exactly when every
non-system field of the source data occurs in the destination record with
an equal stringified value, extra destination fields being ignored — so a
source record with empty sanitized data matches every destination record,
and with skip-existing on such a record is skipped whenever the destination
collection is non-empty. -/
theorem C9_records_match_one_directional :
    (∀ r1 r2 : RecordData, recordsMatch r1 r2 = true ↔
      ∀ kv ∈ r1, isSystemField kv.1 = true ∨
        ∃ v2, r2.lookup kv.1 = some v2 ∧
          kv.2.toGoString = v2.toGoString) ∧
    (∀ r2, recordsMatch [] r2 = true) ∧
    (∀ (destT : Transport) (config : MigrationConfig)
        (record : MigrationRecord) (idx : Nat) (d : RecordData)
        (ds : List RecordData),
      config.SkipExisting = true →
      record.Data = [] →
      (All destT config.CollectionName).1 = .ok (some (d :: ds)) →
      migrateOne destT config record idx =
        (.skipped, [allRequest config.CollectionName])) := by
  refine ⟨?_, fun r2 => rfl, ?_⟩
  · intro r1 r2
    unfold recordsMatch
    rw [List.all_eq_true]
    constructor
    · intro h kv hkv
      have hk := h kv hkv
      by_cases hs : isSystemField kv.1 = true
      · left
        exact hs
      · right
        rw [if_neg hs] at hk
        cases hl : r2.lookup kv.1 with
        | none =>
          rw [hl] at hk
          simp at hk
        | some v2 =>
          rw [hl] at hk
          exact ⟨v2, rfl, by simpa using hk⟩
    · intro h kv hkv
      rcases h kv hkv with hs | ⟨v2, hl, he⟩
      · simp [hs]
      · by_cases hs : isSystemField kv.1 = true
        · simp [hs]
        · rw [if_neg hs, hl]
          simpa using he
  · intro destT config record idx d ds hskip hdata hAll
    refine migrateOne_skipped destT config record idx (d :: ds) hskip hAll ?_
    rw [hdata]
    simp [recordsMatch]

/-- Witness for C9: a source record with empty sanitized data is skipped
against a destination holding one record. -/
theorem C9_records_match_one_directional_witness :
    migrateOne (okTransport respOneItem) ⟨"d", "j", "c", true, 50⟩
      ⟨"s", [], "", ""⟩ 0 = (.skipped, [allRequest "c"]) :=
  C9_records_match_one_directional.2.2 (okTransport respOneItem)
    ⟨"d", "j", "c", true, 50⟩ ⟨"s", [], "", ""⟩ 0
    [("x", GoValue.str "1")] [] rfl rfl rfl

/-- C10: in the create paths of `CreateMultipleRecords` and `BulkUpsert`,
when the HTTP create succeeds but the response cannot be unmarshalled or
lacks an `id` field, the item is still a success whose reported ID is the
empty string (which lands in the `Success` list); the parse failure never
surfaces as an error. -/
theorem C10_parse_failure_silent (t : Transport) (coll : String) (idx : Nat) :
    (∀ (rec : RecordData) resp, t (postRequest coll rec) = .ok resp →
      noIdResp resp = true →
      createWork t coll idx rec = (⟨idx, "", none⟩, [postRequest coll rec])) ∧
    (∀ (rec : UpsertRecord) resp, rec.ID = "" →
      t (postRequest coll rec.Data) = .ok resp → noIdResp resp = true →
      upsertWork t coll idx rec =
        (⟨idx, "", none⟩, [postRequest coll rec.Data])) ∧
    (∀ (rec : UpsertRecord) e resp, rec.ID ≠ "" →
      t (patchRequest coll rec.ID rec.Data) = .error e →
      t (postRequest coll rec.Data) = .ok resp → noIdResp resp = true →
      upsertWork t coll idx rec =
        (⟨idx, "", none⟩,
         [patchRequest coll rec.ID rec.Data, postRequest coll rec.Data])) ∧
    (∀ (total : Nat) (rs : List ItemResult) (r : ItemResult),
      r ∈ rs → r.err = none → r.id ∈ (collectResults total rs).Success) := by
  refine ⟨?_, ?_, ?_, ?_⟩
  · intro rec resp hok hno
    unfold createWork
    dsimp only
    rw [hok]
    dsimp only
    rw [extractId_of_noId resp hno]
  · intro rec resp hid hok hno
    unfold upsertWork
    rw [if_neg (by simp [hid])]
    dsimp only
    rw [hok]
    dsimp only
    rw [extractId_of_noId resp hno]
  · intro rec e resp hid herr hok hno
    unfold upsertWork
    rw [if_pos hid]
    dsimp only
    rw [herr]
    dsimp only
    rw [hok]
    dsimp only
    rw [extractId_of_noId resp hno]
  · intro total rs r hmem herr
    exact collectResults_success_mem total rs r hmem herr

/-- Witness for C10: a create answered with an unparsable body is counted
as a success with the empty-string ID. -/
theorem C10_parse_failure_silent_witness :
    (okTransport respUnparsable (postRequest "c" []) = .ok respUnparsable) ∧
    createWork (okTransport respUnparsable) "c" 0 [] =
      (⟨0, "", none⟩, [postRequest "c" []]) :=
  ⟨rfl,
   (C10_parse_failure_silent (okTransport respUnparsable) "c" 0).1 []
     respUnparsable rfl rfl⟩

end PB
